import Mathlib

/-!
Shallow embedding of the mail-exchange processing pipeline (src/index.ts)
and its notification template module (src/reply-template.ts).

Modelling conventions:
- JavaScript's `Set<string>` (`forwardedIds`) is a `List String` with
  idempotent insertion; membership via `List.contains`.
- JavaScript string truthiness (`a || b`, `x ? e1 : e2`) is made explicit:
  an `Option String` value is "truthy" when it is `some s` with `s` nonempty.
- The external mail transport (`transporter.sendMail`) is abstracted by an
  environment function `Nat → Option String`: for a given recipient, attempt
  number `n` either succeeds (`none`) or fails with an error message
  (`some msg`).  The notification send to the original sender is likewise
  abstracted by `Env.notifySend : Option String`.
- `Date.now()`, `Math.random()` and `new Date().toISOString()` are
  environment inputs (`Env.freshId`, `Env.now`).
- Effects of one `processEmail` run are recorded as an event trace; the
  per-recipient delivery events are concurrent in the source
  (`Promise.all`), so their relative interleaving across recipients is not
  meaningful, but all of them complete before anything sequenced after the
  `await` of `forwardEmail`.
-/

/-- One observable effect of a pipeline run. -/
inductive Event where
  | sendAttempt (recipient : String) (attempt : Nat)
  | markProcessed (id : String)
  | notifyAttempt (addr : String)
  | historyAppend
deriving DecidableEq, Repr

/-- `RecipientResult` from src/reply-template.ts (plus the `attempts` field
the pipeline adds in src/index.ts). -/
structure RecipientResult where
  email : String
  success : Bool
  error : Option String
  attempts : Nat
deriving DecidableEq, Repr

/-- Result of one per-recipient send-with-retry: the recorded
`RecipientResult`, the list of requested backoff waits (in ms), and the
transport attempt events. -/
structure SendOutcome where
  result : RecipientResult
  waits : List Nat
  events : List Event
deriving DecidableEq, Repr

/-- `ForwardRule` from src/index.ts. -/
structure ForwardRule where
  tag : String
  recipients : List String
deriving DecidableEq, Repr

/-- The pipeline-relevant part of `Config` from src/index.ts
(imap/smtp/webPort are connection plumbing, not modelled). -/
structure Config where
  rules : List ForwardRule
  forwardPrefix : Option String
  allowedSenders : Option (List String)
  retryCount : Option Nat
deriving DecidableEq, Repr

/-- Aggregate task status (`"success" | "failed"` in src/index.ts). -/
inductive TaskStatus where
  | success
  | failed
deriving DecidableEq, Repr

/-- `ForwardTask` from src/index.ts (`from` is renamed `sender`: `from` is a
Lean keyword). -/
structure ForwardTask where
  id : Nat
  timestamp : String
  subject : String
  sender : String
  matchedTag : String
  recipients : List String
  status : TaskStatus
  error : Option String
deriving DecidableEq, Repr

/-- The fields of a parsed inbound message (`ParsedMail`) the pipeline
reads.  `headerMessageId` is `mail.headers?.get("message-id")?.toString()`. -/
structure ParsedMail where
  messageId : Option String
  headerMessageId : Option String
  subject : Option String
  fromText : Option String
  fromAddr : Option String
deriving DecidableEq, Repr

/-- The mutable global state of src/index.ts: `tasks`, `taskId`,
`forwardedIds`. -/
structure AppState where
  tasks : List ForwardTask
  taskId : Nat
  forwardedIds : List String
deriving DecidableEq, Repr

/-- Environment inputs of one `processEmail` run: per-recipient transport
behaviour, notification-send outcome, the synthesized fallback id
(`Date.now() + "-" + Math.random()`) and the current timestamp. -/
structure Env where
  transport : String → Nat → Option String
  notifySend : Option String
  freshId : String
  now : String

/-- Outcome of one `processEmail` run: final global state, the event trace,
and `fault = some e` when an exception `e` propagates out of `processEmail`
(the returned promise rejects). -/
structure ProcResult where
  state : AppState
  trace : List Event
  fault : Option String
deriving DecidableEq, Repr

/-- JS string truthiness: `some s` with `s` nonempty, else `none`. -/
def jsGetStr : Option String → Option String
  | some s => if s.isEmpty then none else some s
  | none => none

/-- JS `a || b` on (possibly absent) strings. -/
def jsOr (a b : Option String) : Option String :=
  match jsGetStr a with
  | some s => some s
  | none => b

/-- JS `a || d` with a string literal default `d`. -/
def jsStrOr (a : Option String) (d : String) : String :=
  match jsGetStr a with
  | some s => s
  | none => d

/-- `needle` is a prefix of `hay` (character lists). -/
def leadsWith : List Char → List Char → Bool
  | [], _ => true
  | _ :: _, [] => false
  | a :: as, b :: bs => a == b && leadsWith as bs

/-- `needle` occurs contiguously inside `hay` (character lists). -/
def occursIn (needle : List Char) : List Char → Bool
  | [] => leadsWith needle []
  | c :: t => leadsWith needle (c :: t) || occursIn needle t

/-- JS `s.includes(sub)`. -/
def strIncludes (s sub : String) : Bool :=
  occursIn sub.toList s.toList

/-- JS `s.toLowerCase()`: characterwise lowering (the same function as
`String.toLower`, stated by structural recursion on the character list so
that it evaluates inside the kernel). -/
def lowerStr (s : String) : String :=
  ⟨s.data.map Char.toLower⟩

/-- The scan loop of `matchRule` (src/index.ts lines 106-114). -/
def findRule (lowerSubject : String) : List ForwardRule → Option ForwardRule
  | [] => none
  | r :: rest =>
    if strIncludes lowerSubject (lowerStr r.tag) then some r
    else findRule lowerSubject rest

/-- `matchRule` from src/index.ts: first configured rule whose lowercased
tag occurs in the lowercased subject. -/
def matchRule (cfg : Config) (subject : String) : Option ForwardRule :=
  findRule (lowerStr subject) cfg.rules

/-- `isSenderAllowed` from src/index.ts lines 175-179. -/
def isSenderAllowed (cfg : Config) (email : String) : Bool :=
  match cfg.allowedSenders with
  | none => true
  | some l =>
    if l.isEmpty then true
    else l.any (fun s => strIncludes (lowerStr email) (lowerStr s))

/-- `isAlreadyForwarded` from src/index.ts lines 70-73: the dedup check is
skipped (returns false) when `mail.messageId || header` is not truthy. -/
def isAlreadyForwarded (mail : ParsedMail) (forwardedIds : List String) : Bool :=
  match jsGetStr (jsOr mail.messageId mail.headerMessageId) with
  | some s => forwardedIds.contains s
  | none => false

/-- `getMessageId` from src/index.ts lines 75-77: parsed id, else header id,
else the synthesized `Date.now()-Math.random()` string (`fresh`). -/
def getMessageId (mail : ParsedMail) (fresh : String) : String :=
  match jsGetStr (jsOr mail.messageId mail.headerMessageId) with
  | some s => s
  | none => fresh

/-- `forwardedIds.add(id)` (JS `Set.add` is idempotent). -/
def addId (id : String) (ids : List String) : List String :=
  if ids.contains id then ids else ids ++ [id]

/-- The in-memory effect of `saveForwardedId` (src/index.ts lines 64-68). -/
def markState (st : AppState) (id : String) : AppState :=
  { st with forwardedIds := addId id st.forwardedIds }

/-- The retry loop of `sendToRecipient` (src/index.ts lines 121-142),
recursing on the number of remaining loop iterations.  `attempt` is the
current attempt number; `lastError` the last recorded error message. -/
def sendGo (env : Nat → Option String) (recipient : String) (maxAttempts : Nat) :
    Nat → Nat → String → SendOutcome
  | 0, _, lastError =>
    ⟨⟨recipient, false, some lastError, maxAttempts⟩, [], []⟩
  | remaining + 1, attempt, _ =>
    match env attempt with
    | none =>
      ⟨⟨recipient, true, none, attempt⟩, [], [Event.sendAttempt recipient attempt]⟩
    | some e =>
      let rest := sendGo env recipient maxAttempts remaining (attempt + 1) e
      ⟨rest.result,
       if attempt < maxAttempts then 1000 * attempt :: rest.waits else rest.waits,
       Event.sendAttempt recipient attempt :: rest.events⟩

/-- `sendToRecipient` from src/index.ts lines 117-145.  The construction of
the outgoing message (prefix, body, attachments) is absorbed into the
transport environment `env`; `maxAttempts = config.retryCount ?? 3`. -/
def sendToRecipient (cfg : Config) (env : Nat → Option String)
    (_mail : ParsedMail) (recipient : String) : SendOutcome :=
  let maxAttempts := cfg.retryCount.getD 3
  sendGo env recipient maxAttempts maxAttempts 1 ""

/-- `forwardEmail` from src/index.ts lines 148-151: `Promise.all` over the
rule's recipients, preserving recipient order in the result list. -/
def forwardEmail (cfg : Config) (tenv : String → Nat → Option String)
    (mail : ParsedMail) (rule : ForwardRule) : List RecipientResult :=
  rule.recipients.map (fun r => (sendToRecipient cfg (tenv r) mail r).result)

/-- The transport attempt events of `forwardEmail`, grouped by recipient
(the sends are concurrent; the grouping is one linearization of them). -/
def forwardEvents (cfg : Config) (tenv : String → Nat → Option String)
    (mail : ParsedMail) (rule : ForwardRule) : List Event :=
  (rule.recipients.map (fun r => (sendToRecipient cfg (tenv r) mail r).events)).flatten

/-- The `ForwardTask` construction and aggregation of `processEmail`
(src/index.ts lines 212-233): status is `failed` iff any recipient failed,
with error summary `"<failCount>/<total> failed"`. -/
def aggregateTask (newId : Nat) (now subject sender : String)
    (rule : ForwardRule) (results : List RecipientResult) : ForwardTask :=
  let successCount := (results.filter (fun r => r.success)).length
  let failCount := results.length - successCount
  { id := newId
    timestamp := now
    subject := subject
    sender := sender
    matchedTag := rule.tag
    recipients := rule.recipients
    status := if 0 < failCount then TaskStatus.failed else TaskStatus.success
    error :=
      if 0 < failCount then
        some (toString failCount ++ "/" ++ toString results.length ++ " failed")
      else none }

/-- `tasks.unshift(task); if (tasks.length > 100) tasks.pop()`
(src/index.ts lines 237-238). -/
def pushTask (t : ForwardTask) (ts : List ForwardTask) : List ForwardTask :=
  let l := t :: ts
  if 100 < l.length then l.dropLast else l

/-- `processEmail` from src/index.ts lines 182-239.  The `await` of
`sendReplyNotification` (line 235) is not guarded by try/catch: when the
notification send rejects, the exception propagates (`fault`), and the
subsequent history append (lines 237-238) does not run. -/
def processEmail (cfg : Config) (env : Env) (mail : ParsedMail)
    (st : AppState) : ProcResult :=
  let subject := jsStrOr mail.subject "(no subject)"
  let sender := jsStrOr mail.fromText "unknown"
  let fromAddr := jsStrOr mail.fromAddr ""
  let messageId := getMessageId mail env.freshId
  if isAlreadyForwarded mail st.forwardedIds then
    ⟨st, [], none⟩
  else if !isSenderAllowed cfg fromAddr then
    ⟨markState st messageId, [Event.markProcessed messageId], none⟩
  else
    match matchRule cfg subject with
    | none => ⟨markState st messageId, [Event.markProcessed messageId], none⟩
    | some rule =>
      let newId := st.taskId + 1
      let results := forwardEmail cfg env.transport mail rule
      let devts := forwardEvents cfg env.transport mail rule
      let task := aggregateTask newId env.now subject sender rule results
      let st1 : AppState := ⟨st.tasks, newId, addId messageId st.forwardedIds⟩
      match jsGetStr mail.fromAddr with
      | none =>
        ⟨{ st1 with tasks := pushTask task st1.tasks },
         devts ++ [Event.markProcessed messageId, Event.historyAppend], none⟩
      | some replyTo =>
        match env.notifySend with
        | none =>
          ⟨{ st1 with tasks := pushTask task st1.tasks },
           devts ++ [Event.markProcessed messageId, Event.notifyAttempt replyTo,
                     Event.historyAppend], none⟩
        | some e =>
          ⟨st1,
           devts ++ [Event.markProcessed messageId, Event.notifyAttempt replyTo],
           some e⟩

/-! ## Helper lemmas about the retry loop -/

lemma sendGo_email (env : Nat → Option String) (r : String) (maxA : Nat) :
    ∀ remaining attempt le,
      (sendGo env r maxA remaining attempt le).result.email = r := by
  intro remaining
  induction remaining with
  | zero => intro attempt le; rfl
  | succ m ih =>
    intro attempt le
    cases he : env attempt with
    | none => simp [sendGo, he]
    | some e => simp [sendGo, he, ih]

lemma sendGo_attempts_le (env : Nat → Option String) (r : String) (maxA : Nat) :
    ∀ remaining attempt le, attempt + remaining = maxA + 1 →
      (sendGo env r maxA remaining attempt le).result.attempts ≤ maxA := by
  intro remaining
  induction remaining with
  | zero => intro attempt le h; simp [sendGo]
  | succ m ih =>
    intro attempt le h
    cases he : env attempt with
    | none => simp [sendGo, he]; omega
    | some e => simpa [sendGo, he] using ih (attempt + 1) e (by omega)

lemma sendGo_events_le (env : Nat → Option String) (r : String) (maxA : Nat) :
    ∀ remaining attempt le,
      (sendGo env r maxA remaining attempt le).events.length ≤ remaining := by
  intro remaining
  induction remaining with
  | zero => intro attempt le; simp [sendGo]
  | succ m ih =>
    intro attempt le
    cases he : env attempt with
    | none => simp [sendGo, he]
    | some e =>
      have := ih (attempt + 1) e
      simp [sendGo, he]
      omega

lemma sendGo_fail (env : Nat → Option String) (r : String) (maxA : Nat)
    (f : Nat → String) :
    ∀ remaining attempt le, attempt + remaining = maxA + 1 →
      (∀ n, attempt ≤ n → n ≤ maxA → env n = some (f n)) →
      sendGo env r maxA remaining attempt le =
        ⟨⟨r, false, some (if remaining = 0 then le else f maxA), maxA⟩,
         (List.range' attempt (remaining - 1)).map (fun k => 1000 * k),
         (List.range' attempt remaining).map (fun k => Event.sendAttempt r k)⟩ := by
  intro remaining
  induction remaining with
  | zero => intro attempt le h hf; simp [sendGo]
  | succ m ih =>
    intro attempt le h hf
    have ha : attempt ≤ maxA := by omega
    have he : env attempt = some (f attempt) := hf attempt (Nat.le_refl _) ha
    have hrec := ih (attempt + 1) (f attempt) (by omega)
      (fun n h1 h2 => hf n (by omega) h2)
    simp only [sendGo, he]
    rw [hrec]
    by_cases hm : m = 0
    · have haa : attempt = maxA := by omega
      subst hm
      simp [haa, List.range'_one]
    · have h1 : attempt < maxA := by omega
      have h2 : m = (m - 1) + 1 := by omega
      have hw : List.range' attempt m = attempt :: List.range' (attempt + 1) (m - 1) := by
        conv_lhs => rw [h2]
        rw [List.range'_succ]
      have hv : List.range' attempt (m + 1) = attempt :: List.range' (attempt + 1) m :=
        List.range'_succ attempt m 1
      simp [hm, h1, hw, hv]

lemma sendGo_success (env : Nat → Option String) (r : String) (maxA n : Nat) :
    ∀ remaining attempt le, attempt + remaining = maxA + 1 →
      attempt ≤ n → n ≤ maxA → env n = none →
      (∀ m, attempt ≤ m → m < n → env m ≠ none) →
      sendGo env r maxA remaining attempt le =
        ⟨⟨r, true, none, n⟩,
         (List.range' attempt (n - attempt)).map (fun k => 1000 * k),
         (List.range' attempt (n - attempt + 1)).map
           (fun k => Event.sendAttempt r k)⟩ := by
  intro remaining
  induction remaining with
  | zero => intro attempt le h h1 h2 h3 h4; omega
  | succ m ih =>
    intro attempt le h h1 h2 h3 h4
    by_cases heq : attempt = n
    · subst heq
      simp [sendGo, h3, List.range'_one]
    · have hlt : attempt < n := by omega
      have hne : env attempt ≠ none := h4 attempt (Nat.le_refl _) hlt
      obtain ⟨e, he⟩ : ∃ e, env attempt = some e := by
        cases hh : env attempt
        · exact absurd hh hne
        · exact ⟨_, rfl⟩
      have hrec := ih (attempt + 1) e (by omega) (by omega) h2 h3
        (fun k hk1 hk2 => h4 k (by omega) hk2)
      simp only [sendGo, he]
      rw [hrec]
      have hmc : attempt < maxA := by omega
      have hsub : n - attempt = (n - (attempt + 1)) + 1 := by omega
      have hw : List.range' attempt (n - attempt) =
          attempt :: List.range' (attempt + 1) (n - (attempt + 1)) := by
        rw [hsub, List.range'_succ]
      have hv : List.range' attempt (n - attempt + 1) =
          attempt :: List.range' (attempt + 1) (n - (attempt + 1) + 1) := by
        rw [hsub, List.range'_succ]
      simp [hmc, hw, hv]

/-! ## Shared concrete fixtures for witnesses -/

/-- A mail with a parsed message id, a tagged subject and a sender address. -/
def mailW : ParsedMail :=
  ⟨some "mid-1", none, some "hello [T]", some "User", some "u@ex.com"⟩

/-- A config with one rule, no allow-list, retry count 2. -/
def cfgW : Config := ⟨[⟨"[T]", ["a@x", "b@x"]⟩], none, none, some 2⟩

/-- A transport that fails on attempt 1 and succeeds on attempt 2. -/
def envRetryW : Nat → Option String := fun n => if n = 1 then some "e1" else none

/-- C3: per-recipient send-with-retry makes at most `maxAttempts`
(`config.retryCount ?? 3`) sequential transport attempts; success at
attempt `n` returns `{success: true, attempts: n}` and stops; if every
attempt fails it returns `{success: false, error: lastErrorMessage,
attempts: maxAttempts}`; a backoff wait of `1000 * attemptNumber` ms is
requested after a failed attempt exactly when attempts remain. -/
theorem c3_send_with_retry (cfg : Config) (env : Nat → Option String)
    (mail : ParsedMail) (r : String) (maxA : Nat)
    (hm : maxA = cfg.retryCount.getD 3) :
    ((sendToRecipient cfg env mail r).result.attempts ≤ maxA ∧
     (sendToRecipient cfg env mail r).events.length ≤ maxA) ∧
    (∀ n, 1 ≤ n → n ≤ maxA → env n = none →
      (∀ m, 1 ≤ m → m < n → env m ≠ none) →
      sendToRecipient cfg env mail r =
        ⟨⟨r, true, none, n⟩,
         (List.range' 1 (n - 1)).map (fun k => 1000 * k),
         (List.range' 1 n).map (fun k => Event.sendAttempt r k)⟩) ∧
    (∀ f : Nat → String, 1 ≤ maxA →
      (∀ n, 1 ≤ n → n ≤ maxA → env n = some (f n)) →
      sendToRecipient cfg env mail r =
        ⟨⟨r, false, some (f maxA), maxA⟩,
         (List.range' 1 (maxA - 1)).map (fun k => 1000 * k),
         (List.range' 1 maxA).map (fun k => Event.sendAttempt r k)⟩) := by
  subst hm
  simp only [sendToRecipient]
  refine ⟨⟨?_, ?_⟩, ?_, ?_⟩
  · exact sendGo_attempts_le env r _ _ 1 "" (by omega)
  · exact sendGo_events_le env r _ _ 1 ""
  · intro n h1 h2 h3 h4
    have hn : n - 1 + 1 = n := by omega
    rw [sendGo_success env r _ n _ 1 "" (by omega) h1 h2 h3
      (fun m hm1 hm2 => h4 m hm1 hm2), hn]
  · intro f h0 hf
    rw [sendGo_fail env r _ f _ 1 "" (by omega) (fun n h1 h2 => hf n h1 h2)]
    simp [show cfg.retryCount.getD 3 ≠ 0 by omega]

/-- Witness for C3: with retry count 2, a transport failing on attempt 1
and succeeding on attempt 2 yields a success result with 2 attempts and a
single 1000 ms backoff wait. -/
theorem c3_send_with_retry_witness :
    sendToRecipient cfgW envRetryW mailW "a@x" =
      ⟨⟨"a@x", true, none, 2⟩,
       (List.range' 1 1).map (fun k => 1000 * k),
       (List.range' 1 2).map (fun k => Event.sendAttempt "a@x" k)⟩ :=
  (c3_send_with_retry cfgW envRetryW mailW "a@x" 2 rfl).2.1 2
    (by decide) (by decide) (by rfl)
    (by
      intro m hm1 hm2
      have h : m = 1 := by omega
      subst h
      simp [envRetryW])

/-- C10: `forwardEmail` returns exactly one `RecipientResult` per configured
recipient, in the order of the rule's recipient list: the i-th result's
email is the i-th recipient. -/
theorem c10_one_result_per_recipient (cfg : Config)
    (tenv : String → Nat → Option String) (mail : ParsedMail)
    (rule : ForwardRule) :
    (forwardEmail cfg tenv mail rule).map (fun r => r.email) = rule.recipients ∧
    (forwardEmail cfg tenv mail rule).length = rule.recipients.length := by
  constructor
  · unfold forwardEmail
    rw [List.map_map]
    have h : ∀ a ∈ rule.recipients,
        ((fun r => r.email) ∘ fun r => (sendToRecipient cfg (tenv r) mail r).result) a
          = (fun a => a) a := by
      intro a _
      simp only [Function.comp, sendToRecipient]
      exact sendGo_email (tenv a) a _ _ 1 ""
    rw [List.map_congr_left h, List.map_id']
  · simp [forwardEmail]

/-! ## Rule matching: characterization of the linear scan -/

lemma findRule_eq_find (lower : String) :
    ∀ rules, findRule lower rules =
      rules.find? (fun r => strIncludes lower (lowerStr r.tag)) := by
  intro rules
  induction rules with
  | nil => rfl
  | cons a rest ih =>
    by_cases h : strIncludes lower (lowerStr a.tag)
    · simp [findRule, h]
    · simp [findRule, h, ih]

lemma findRule_decomp (lower : String) :
    ∀ rules r, findRule lower rules = some r →
      strIncludes lower (lowerStr r.tag) = true ∧
      ∃ pre post, rules = pre ++ r :: post ∧
        ∀ r' ∈ pre, strIncludes lower (lowerStr r'.tag) = false := by
  intro rules
  induction rules with
  | nil => intro r h; simp [findRule] at h
  | cons a rest ih =>
    intro r h
    by_cases hp : strIncludes lower (lowerStr a.tag)
    · simp [findRule, hp] at h
      subst h
      exact ⟨hp, [], rest, rfl, by simp⟩
    · simp [findRule, hp] at h
      obtain ⟨h1, pre, post, hdec, hall⟩ := ih r h
      refine ⟨h1, a :: pre, post, by simp [hdec], ?_⟩
      intro r' hr'
      rcases List.mem_cons.mp hr' with he | hm
      · subst he
        simpa using hp
      · exact hall r' hm

/-! ## Claim theorems: matching, allow-list, dedup -/

/-- C6: `matchRule` returns the first rule in configured order whose
lowercased tag is a substring of the lowercased subject, and none when no
rule's tag is such a substring; overlapping tags are resolved purely by
configuration order. -/
theorem c6_first_match_wins (cfg : Config) (subject : String) :
    (matchRule cfg subject =
      cfg.rules.find? (fun r => strIncludes (lowerStr subject) (lowerStr r.tag))) ∧
    (matchRule cfg subject = none ↔
      ∀ r ∈ cfg.rules, strIncludes (lowerStr subject) (lowerStr r.tag) = false) ∧
    (∀ r, matchRule cfg subject = some r →
      strIncludes (lowerStr subject) (lowerStr r.tag) = true ∧
      ∃ pre post, cfg.rules = pre ++ r :: post ∧
        ∀ r' ∈ pre, strIncludes (lowerStr subject) (lowerStr r'.tag) = false) := by
  refine ⟨findRule_eq_find _ _, ?_, ?_⟩
  · rw [show matchRule cfg subject = findRule (lowerStr subject) cfg.rules from rfl,
      findRule_eq_find]
    simp [List.find?_eq_none]
  · intro r h
    exact findRule_decomp _ _ r h

/-- A config with two rules whose tags overlap: the first is a prefix of
the second. -/
def cfgOverlap : Config :=
  ⟨[⟨"[PH", ["x@x"]⟩, ⟨"[PHOTO]", ["y@y"]⟩], none, none, none⟩

/-- Witness for C6: a subject matching neither tag yields no rule. -/
theorem c6_first_match_wins_witness : matchRule cfgOverlap "plain subject" = none :=
  (c6_first_match_wins cfgOverlap "plain subject").2.1.mpr (by decide)

/-- C7: `isSenderAllowed` returns true when the allow-list is absent or
empty; otherwise true iff the lowercased sender contains some lowercased
allow-list entry as a substring. -/
theorem c7_allowlist (cfg : Config) (email : String) :
    ((cfg.allowedSenders = none ∨ cfg.allowedSenders = some []) →
      isSenderAllowed cfg email = true) ∧
    (∀ l, cfg.allowedSenders = some l → l ≠ [] →
      (isSenderAllowed cfg email = true ↔
        ∃ s ∈ l, strIncludes (lowerStr email) (lowerStr s) = true)) := by
  constructor
  · rintro (h | h) <;> simp [isSenderAllowed, h]
  · intro l hl hne
    simp [isSenderAllowed, hl, hne]

/-- A config whose allow-list holds one bare-domain entry. -/
def cfgDomain : Config := ⟨[], none, some ["@EX.com"], none⟩

/-- Witness for C7: a sender at the allow-listed domain is allowed
(case-insensitively). -/
theorem c7_allowlist_witness : isSenderAllowed cfgDomain "John@ex.COM" = true :=
  ((c7_allowlist cfgDomain "John@ex.COM").2 ["@EX.com"] rfl (by decide)).mpr
    ⟨"@EX.com", by decide, by decide⟩

/-- C9: a message with neither a parsed `messageId` nor a `message-id`
header is never skipped as a duplicate (`isAlreadyForwarded` is false for
every dedup set), and the identifier recorded for it is the freshly
synthesized value of that run, so distinct synthesized values give
distinct recorded identifiers. -/
theorem c9_missing_id (mail : ParsedMail)
    (h1 : mail.messageId = none) (h2 : mail.headerMessageId = none) :
    (∀ ids, isAlreadyForwarded mail ids = false) ∧
    (∀ fresh, getMessageId mail fresh = fresh) ∧
    (∀ f1 f2 : String, f1 ≠ f2 → getMessageId mail f1 ≠ getMessageId mail f2) := by
  refine ⟨?_, ?_, ?_⟩
  · intro ids
    simp [isAlreadyForwarded, jsOr, jsGetStr, h1, h2]
  · intro fresh
    simp [getMessageId, jsOr, jsGetStr, h1, h2]
  · intro f1 f2 h
    simpa [getMessageId, jsOr, jsGetStr, h1, h2] using h

/-- A message carrying no identifier at all. -/
def mailNoId : ParsedMail := ⟨none, none, some "s", none, none⟩

/-- Witness for C9: with a nonempty dedup set, the no-id message is not
considered a duplicate, and its recorded id is the synthesized one. -/
theorem c9_missing_id_witness :
    isAlreadyForwarded mailNoId ["mid-1"] = false ∧
      getMessageId mailNoId "1712-0.42" = "1712-0.42" :=
  ⟨(c9_missing_id mailNoId rfl rfl).1 ["mid-1"],
   (c9_missing_id mailNoId rfl rfl).2.1 "1712-0.42"⟩

/-- An environment whose transport always succeeds and whose notification
send succeeds. -/
def envW : Env := ⟨fun _ _ => none, none, "F-1", "T-1"⟩

/-- C1: a message whose identifier is already in the dedup set makes the
orchestrator terminate immediately: empty trace (no delivery attempt, no
notification, no history append) and unchanged state. -/
theorem c1_duplicate_skip (cfg : Config) (env : Env) (mail : ParsedMail)
    (st : AppState) (i : String)
    (h1 : jsGetStr (jsOr mail.messageId mail.headerMessageId) = some i)
    (h2 : st.forwardedIds.contains i = true) :
    processEmail cfg env mail st = ⟨st, [], none⟩ := by
  have hdup : isAlreadyForwarded mail st.forwardedIds = true := by
    unfold isAlreadyForwarded
    rw [h1]
    exact h2
  simp [processEmail, hdup]

/-- A state whose dedup set already holds `mailW`'s message id. -/
def stDup : AppState := ⟨[], 0, ["mid-1"]⟩

/-- Witness for C1: processing `mailW` against a dedup set containing
`"mid-1"` is a no-op. -/
theorem c1_duplicate_skip_witness :
    processEmail cfgW envW mailW stDup = ⟨stDup, [], none⟩ :=
  c1_duplicate_skip cfgW envW mailW stDup "mid-1" (by rfl) (by decide)

/-! ## Task history: bounded newest-first buffer -/

lemma take_append_take {α : Type} (X Y : List α) (n : Nat) :
    (X ++ Y.take n).take n = (X ++ Y).take n := by
  rw [List.take_append_eq_append_take, List.take_append_eq_append_take,
    List.take_take]
  rw [Nat.min_eq_left (Nat.sub_le n X.length)]

lemma pushTask_eq_take (t : ForwardTask) (ts : List ForwardTask)
    (h : ts.length ≤ 100) : pushTask t ts = (t :: ts).take 100 := by
  simp only [pushTask]
  by_cases hl : 100 < (t :: ts).length
  · rw [if_pos hl, List.dropLast_eq_take]
    have h2 : (t :: ts).length - 1 = 100 := by
      simp only [List.length_cons] at hl ⊢
      omega
    rw [h2]
  · rw [if_neg hl, List.take_of_length_le (by omega)]

lemma foldl_pushTask (L : List ForwardTask) :
    ∀ acc, acc.length ≤ 100 →
      List.foldl (fun a t => pushTask t a) acc L = (L.reverse ++ acc).take 100 := by
  induction L with
  | nil =>
    intro acc h
    simpa using (List.take_of_length_le h).symm
  | cons t L ih =>
    intro acc h
    have hp : (pushTask t acc).length ≤ 100 := by
      rw [pushTask_eq_take t acc h]
      simp [Nat.min_le_left]
    simp only [List.foldl_cons]
    rw [ih (pushTask t acc) hp, pushTask_eq_take t acc h, List.reverse_cons,
      List.append_assoc]
    exact take_append_take _ _ _

/-- C5: the task history is inserted at the head, capped at 100 entries
with the oldest (tail) entry evicted on overflow, and after inserting a
list of tasks the buffer holds exactly the 100 newest in newest-first
order, so the first of 101 distinct insertions is absent. -/
theorem c5_history_bounded :
    (∀ (t : ForwardTask) (ts : List ForwardTask), ts.length ≤ 100 →
      (pushTask t ts).length ≤ 100) ∧
    (∀ (t : ForwardTask) (ts : List ForwardTask), (pushTask t ts).head? = some t) ∧
    (∀ (t : ForwardTask) (ts : List ForwardTask), ts.length = 100 →
      pushTask t ts = t :: ts.dropLast) ∧
    (∀ L : List ForwardTask,
      List.foldl (fun acc t => pushTask t acc) [] L = L.reverse.take 100) ∧
    (∀ (t0 : ForwardTask) (rest : List ForwardTask), rest.length = 100 →
      t0 ∉ rest → t0 ∉ List.foldl (fun acc t => pushTask t acc) [] (t0 :: rest)) := by
  refine ⟨?_, ?_, ?_, ?_, ?_⟩
  · intro t ts h
    rw [pushTask_eq_take t ts h]
    simp [Nat.min_le_left]
  · intro t ts
    simp only [pushTask]
    by_cases hl : 100 < (t :: ts).length
    · rw [if_pos hl]
      cases ts with
      | nil => simp at hl
      | cons a ts' =>
        rw [List.dropLast_cons_of_ne_nil (by simp)]
        simp
    · rw [if_neg hl]
      simp
  · intro t ts h
    simp only [pushTask]
    rw [if_pos (by simp [h]), List.dropLast_cons_of_ne_nil (by
      intro hnil
      rw [hnil] at h
      simp at h)]
  · intro L
    have h := foldl_pushTask L [] (by simp)
    simpa using h
  · intro t0 rest h1 h2
    have h := foldl_pushTask (t0 :: rest) [] (by simp)
    simp only [List.append_nil] at h
    rw [h, List.reverse_cons, List.take_left' (by simp [h1])]
    simpa using h2

/-- A distinct task per index, used to exercise the history cap. -/
def mkT (n : Nat) : ForwardTask :=
  ⟨n, "", "", "", "", [], TaskStatus.success, none⟩

/-- Witness for C5: after 101 insertions of distinct tasks the
first-inserted task is absent from the history. -/
theorem c5_history_bounded_witness :
    mkT 0 ∉ List.foldl (fun acc t => pushTask t acc) []
      (mkT 0 :: (List.range' 1 100).map mkT) :=
  c5_history_bounded.2.2.2.2 (mkT 0) ((List.range' 1 100).map mkT)
    (by simp) (by decide)

/-! ## Aggregation of per-recipient outcomes -/

/-- C4: for a matched message the aggregate `ForwardTask` built from the
delivery results has status `success` iff every `RecipientResult`
succeeded and `failed` otherwise; when some recipient failed the error
summary is exactly `"<failCount>/<N> failed"`; and one result per
configured recipient is present in the aggregation. -/
theorem c4_aggregate (cfg : Config) (tenv : String → Nat → Option String)
    (mail : ParsedMail) (rule : ForwardRule) (newId : Nat)
    (now subject sender : String) (results : List RecipientResult)
    (hres : results = forwardEmail cfg tenv mail rule) :
    ((aggregateTask newId now subject sender rule results).status =
        TaskStatus.success ↔ ∀ r ∈ results, r.success = true) ∧
    ((aggregateTask newId now subject sender rule results).status =
        TaskStatus.failed ↔ ∃ r ∈ results, r.success = false) ∧
    (∀ failCount,
      failCount = results.length - (results.filter (fun r => r.success)).length →
      0 < failCount →
      (aggregateTask newId now subject sender rule results).error =
        some (toString failCount ++ "/" ++ toString results.length ++ " failed")) ∧
    results.length = rule.recipients.length := by
  have hle := List.length_filter_le (fun r => r.success) results
  have hall : (results.filter (fun r => r.success)).length = results.length ↔
      ∀ r ∈ results, r.success = true := List.filter_length_eq_length
  have hex : (¬∀ r ∈ results, r.success = true) ↔
      ∃ r ∈ results, r.success = false := by
    constructor
    · intro h
      by_contra hne
      apply h
      intro r hr
      cases hs : r.success
      · exact absurd ⟨r, hr, hs⟩ hne
      · rfl
    · rintro ⟨r, hr, hf⟩ hallr
      rw [hallr r hr] at hf
      cases hf
  refine ⟨?_, ?_, ?_, ?_⟩
  · by_cases hc : 0 < results.length - (results.filter (fun r => r.success)).length
    · rw [show (aggregateTask newId now subject sender rule results).status =
          TaskStatus.failed by simp only [aggregateTask]; rw [if_pos hc]]
      refine iff_of_false (by simp) ?_
      rw [← hall]
      omega
    · rw [show (aggregateTask newId now subject sender rule results).status =
          TaskStatus.success by simp only [aggregateTask]; rw [if_neg hc]]
      refine iff_of_true rfl ?_
      rw [← hall]
      omega
  · by_cases hc : 0 < results.length - (results.filter (fun r => r.success)).length
    · rw [show (aggregateTask newId now subject sender rule results).status =
          TaskStatus.failed by simp only [aggregateTask]; rw [if_pos hc]]
      refine iff_of_true rfl ?_
      rw [← hex, ← hall]
      omega
    · rw [show (aggregateTask newId now subject sender rule results).status =
          TaskStatus.success by simp only [aggregateTask]; rw [if_neg hc]]
      refine iff_of_false (by simp) ?_
      rw [← hex, ← hall]
      omega
  · intro failCount hfc hpos
    subst hfc
    simp only [aggregateTask]
    rw [if_pos hpos]
  · rw [hres]
    simp [forwardEmail]

/-- The rule of `cfgW`. -/
def ruleW : ForwardRule := ⟨"[T]", ["a@x", "b@x"]⟩

/-- A transport for which only recipient `b@x` fails (permanently). -/
def envHalf : String → Nat → Option String :=
  fun r _ => if r == "b@x" then some "boom" else none

/-- Witness for C4: with one of two recipients failing, the aggregate task
is failed with summary `"1/2 failed"`. -/
theorem c4_aggregate_witness :
    (aggregateTask 1 "T-1" "hello [T]" "User" ruleW
        (forwardEmail cfgW envHalf mailW ruleW)).status = TaskStatus.failed ∧
    (aggregateTask 1 "T-1" "hello [T]" "User" ruleW
        (forwardEmail cfgW envHalf mailW ruleW)).error = some "1/2 failed" := by
  obtain ⟨h1, h2, h3, h4⟩ := c4_aggregate cfgW envHalf mailW ruleW 1 "T-1"
    "hello [T]" "User" (forwardEmail cfgW envHalf mailW ruleW) rfl
  constructor
  · exact h2.mpr ⟨⟨"b@x", false, some "boom", 2⟩, by decide, rfl⟩
  · exact (h3 1 (by decide) (by decide)).trans (by decide)

/-! ## Pipeline ordering and the notification fault path -/

/-- C8: the dedup marker is written after delivery completes for a matched
message, and for a disallowed-sender or unmatched-subject message it is
written without any delivery attempt: those runs mark the message
processed and produce no delivery attempt, no notification and no task
history entry. -/
theorem c8_mark_ordering (cfg : Config) (env : Env) (mail : ParsedMail)
    (st : AppState) :
    (isAlreadyForwarded mail st.forwardedIds = false →
      isSenderAllowed cfg (jsStrOr mail.fromAddr "") = false →
      processEmail cfg env mail st =
        ⟨markState st (getMessageId mail env.freshId),
         [Event.markProcessed (getMessageId mail env.freshId)], none⟩) ∧
    (isAlreadyForwarded mail st.forwardedIds = false →
      isSenderAllowed cfg (jsStrOr mail.fromAddr "") = true →
      matchRule cfg (jsStrOr mail.subject "(no subject)") = none →
      processEmail cfg env mail st =
        ⟨markState st (getMessageId mail env.freshId),
         [Event.markProcessed (getMessageId mail env.freshId)], none⟩) ∧
    (∀ rule, isAlreadyForwarded mail st.forwardedIds = false →
      isSenderAllowed cfg (jsStrOr mail.fromAddr "") = true →
      matchRule cfg (jsStrOr mail.subject "(no subject)") = some rule →
      ∃ rest, (processEmail cfg env mail st).trace =
          forwardEvents cfg env.transport mail rule ++
            Event.markProcessed (getMessageId mail env.freshId) :: rest ∧
        (∀ rc n, Event.sendAttempt rc n ∉ rest) ∧
        (processEmail cfg env mail st).state.forwardedIds =
          addId (getMessageId mail env.freshId) st.forwardedIds) := by
  refine ⟨?_, ?_, ?_⟩
  · intro h1 h2
    simp [processEmail, h1, h2]
  · intro h1 h2 h3
    simp [processEmail, h1, h2, h3]
  · intro rule h1 h2 h3
    cases hf : jsGetStr mail.fromAddr with
    | none =>
      refine ⟨[Event.historyAppend], ?_, ?_, ?_⟩
      · simp [processEmail, h1, h2, h3, hf]
      · intro rc n
        simp
      · simp [processEmail, h1, h2, h3, hf]
    | some replyTo =>
      cases hn : env.notifySend with
      | none =>
        refine ⟨[Event.notifyAttempt replyTo, Event.historyAppend], ?_, ?_, ?_⟩
        · simp [processEmail, h1, h2, h3, hf, hn]
        · intro rc n
          simp
        · simp [processEmail, h1, h2, h3, hf, hn]
      | some e =>
        refine ⟨[Event.notifyAttempt replyTo], ?_, ?_, ?_⟩
        · simp [processEmail, h1, h2, h3, hf, hn]
        · intro rc n
          simp
        · simp [processEmail, h1, h2, h3, hf, hn]

/-- A config whose allow-list excludes `mailW`'s sender. -/
def cfgStrict : Config := ⟨[⟨"[T]", ["a@x"]⟩], none, some ["@corp.com"], some 1⟩

/-- The empty initial state. -/
def stEmpty : AppState := ⟨[], 0, []⟩

/-- Witness for C8: a disallowed sender is marked processed with no
delivery attempt, no notification and no history entry. -/
theorem c8_mark_ordering_witness :
    processEmail cfgStrict envW mailW stEmpty =
      ⟨markState stEmpty (getMessageId mailW envW.freshId),
       [Event.markProcessed (getMessageId mailW envW.freshId)], none⟩ :=
  (c8_mark_ordering cfgStrict envW mailW stEmpty).1 (by decide) (by decide)

/-- An environment whose transport always succeeds but whose notification
send to the original sender fails with `"nboom"`. -/
def envNotifyFail : Env := ⟨fun _ _ => none, some "nboom", "F-1", "T-1"⟩

/-- Counterexample to C2 as stated: when the notification send fails, the
failure is NOT swallowed — `processEmail` faults — and the `ForwardTask`
is NOT appended to the task history (the task list stays empty). -/
theorem c2_notification_counterexample :
    (processEmail cfgW envNotifyFail mailW stEmpty).fault = some "nboom" ∧
    (processEmail cfgW envNotifyFail mailW stEmpty).state.tasks = [] := by
  constructor
  · decide
  · decide

/-- C2 (amended): if the notification send to the original sender fails,
the exception propagates out of `processEmail` as a pipeline-level fault;
the message has already been marked processed (the dedup marker is written
before the notification is attempted), but the `ForwardTask` is not
appended to the task history. -/
theorem c2_notification_fault (cfg : Config) (env : Env) (mail : ParsedMail)
    (st : AppState) (rule : ForwardRule) (e replyTo : String)
    (h1 : isAlreadyForwarded mail st.forwardedIds = false)
    (h2 : isSenderAllowed cfg (jsStrOr mail.fromAddr "") = true)
    (h3 : matchRule cfg (jsStrOr mail.subject "(no subject)") = some rule)
    (h4 : jsGetStr mail.fromAddr = some replyTo)
    (h5 : env.notifySend = some e) :
    processEmail cfg env mail st =
      ⟨⟨st.tasks, st.taskId + 1,
        addId (getMessageId mail env.freshId) st.forwardedIds⟩,
       forwardEvents cfg env.transport mail rule ++
         [Event.markProcessed (getMessageId mail env.freshId),
          Event.notifyAttempt replyTo],
       some e⟩ := by
  simp [processEmail, h1, h2, h3, h4, h5]

/-- Witness for C2 (amended): the concrete faulting run keeps the task list
unchanged while the dedup marker is recorded. -/
theorem c2_notification_fault_witness :
    processEmail cfgW envNotifyFail mailW stEmpty =
      ⟨⟨[], 1, ["mid-1"]⟩,
       [Event.sendAttempt "a@x" 1, Event.sendAttempt "b@x" 1,
        Event.markProcessed "mid-1", Event.notifyAttempt "u@ex.com"],
       some "nboom"⟩ := by
  have h := c2_notification_fault cfgW envNotifyFail mailW stEmpty ruleW
    "nboom" "u@ex.com" (by decide) (by decide) (by decide) (by decide) rfl
  exact h.trans (by decide)
